import Mathlib

/-
Verification of the simpilrs front-end and evaluator (scanner, parser,
interpreter) against its specification.  The Rust sources are embedded
shallowly: bytes of the source text are modelled as characters (exact for
the ASCII inputs the language uses), `u32` values as natural numbers kept
below 2^32, `HashMap` as an association list with unique keys, `Vec` as a
list, and every `unwrap`/indexing panic as an explicit `panic` outcome.
-/

namespace Simpil

/-! ## tokens.rs -/

/-- TokenType from tokens.rs.  `Value` carries a u32 (modelled as a `Nat`
kept `≤ u32Max` by the scanner), `Identifier` its name, `Invalid` the
offending byte (modelled as a `Char`). -/
inductive TokenType where
  | Invalid (c : Char)
  | Ignore
  | LeftParen
  | RightParen
  | Comma
  | Plus
  | Minus
  | Star
  | Slash
  | Assign
  | Value (v : Nat)
  | Identifier (s : String)
  | Store
  | Goto
  | Assert
  | If
  | Then
  | Else
  | Load
  | GetInput
  deriving DecidableEq, Repr

/-- Token from tokens.rs: a token type, the lexeme as recorded by the
scanner, and a 1-based line number. -/
structure Token where
  token_type : TokenType
  lexeme : String
  line : Nat
  deriving DecidableEq, Repr

/-! ## scanner.rs -/

/-- `u32::MAX`; `str::parse::<u32>` fails exactly when the digit run
denotes a larger value. -/
def u32Max : Nat := 4294967295

/-- Byte range `b'0'..=b'9'` of scanner.rs. -/
def isDigitByte (c : Char) : Bool := 48 ≤ c.toNat && c.toNat ≤ 57

/-- Byte ranges `b'a'..=b'z' | b'A'..=b'Z' | b'_'` of scanner.rs. -/
def isIdentStart (c : Char) : Bool :=
  (97 ≤ c.toNat && c.toNat ≤ 122) || (65 ≤ c.toNat && c.toNat ≤ 90) || c = '_'

/-- Continuation bytes of an identifier run (letters, digits, underscore). -/
def isIdentByte (c : Char) : Bool := isIdentStart c || isDigitByte c

/-- Length of the maximal prefix satisfying `p`: the number of `advance`
calls made by the greedy peek-loops in `scan_token`. -/
def runLen (p : Char → Bool) : List Char → Nat
  | [] => 0
  | c :: cs => if p c then runLen p cs + 1 else 0

/-- Decimal value of a digit run (what `str::parse::<u32>` computes before
its range check). -/
def digitsToNat (cs : List Char) : Nat :=
  cs.foldl (fun acc c => acc * 10 + (c.toNat - 48)) 0

/-- The keyword table of `scan_token`; non-keywords become identifiers. -/
def keywordType (s : String) : TokenType :=
  if s = "store" then .Store
  else if s = "goto" then .Goto
  else if s = "assert" then .Assert
  else if s = "if" then .If
  else if s = "then" then .Then
  else if s = "else" then .Else
  else if s = "load" then .Load
  else if s = "get_input" then .GetInput
  else .Identifier s

/-- Scanner state from scanner.rs: the source bytes and the
`start`/`current`/`line`/`column` cursors. -/
structure Scanner where
  source : List Char
  start : Nat
  current : Nat
  line : Nat
  column : Nat
  deriving DecidableEq, Repr

/-- `Scanner::new`. -/
def Scanner.new (s : String) : Scanner :=
  { source := s.data, start := 0, current := 0, line := 1, column := 0 }

/-- `Scanner::is_at_end`. -/
def Scanner.is_at_end (st : Scanner) : Bool := st.source.length ≤ st.current

/-- Result of `Scanner::scan_token`: a token plus the updated scanner,
an `Err` from the `?` operator (u32 overflow of a digit run), or a panic
(`advance` indexing past the end of the source).  `nofuel` is an
embedding artifact; callers pass enough fuel that it never arises
(`scan_token_fuel`). -/
inductive ScanRes where
  | ok (t : Token) (st : Scanner)
  | err (st : Scanner)
  | panic
  | nofuel
  deriving DecidableEq, Repr

/-- The emitting arm of `scan_token`: record the lexeme
`source[start..current]`, reset `start`, and return the token. -/
def Scanner.emit (tt : TokenType) (st : Scanner) : ScanRes :=
  let lexeme := String.mk ((st.source.drop st.start).take (st.current - st.start))
  .ok { token_type := tt, lexeme := lexeme, line := st.line } { st with start := st.current }

/-- `Scanner::scan_token`.  Loops (skipping whitespace and invalid bytes)
until a token is produced, the digit-run parse fails, or `advance` runs
past the end of the source (a panic in the Rust code).  The fuel bounds
the loop iterations; each iteration consumes one byte, so the
`remaining bytes + 1` that `next` passes can never run out
(`scan_token_fuel`). -/
def Scanner.scan_token : Nat → Scanner → ScanRes
  | 0, _ => .nofuel
  | fuel + 1, st =>
    match st.source[st.current]? with
    | Option.none => .panic
    | some c =>
      let st1 : Scanner := { st with current := st.current + 1 }
      if c = '(' then Scanner.emit .LeftParen st1
      else if c = ')' then Scanner.emit .RightParen st1
      else if c = ',' then Scanner.emit .Comma st1
      else if c = '+' then Scanner.emit .Plus st1
      else if c = '-' then Scanner.emit .Minus st1
      else if c = '*' then Scanner.emit .Star st1
      else if c = '/' then Scanner.emit .Slash st1
      else if c = ':' then
        if st1.source[st1.current]? = some '=' then
          Scanner.emit .Assign { st1 with current := st1.current + 1 }
        else
          Scanner.scan_token fuel st1
      else if c = ' ' ∨ c = '\r' ∨ c = '\t' then
        Scanner.scan_token fuel { st1 with start := st1.start + 1 }
      else if c = '\n' then
        Scanner.scan_token fuel { st1 with line := st1.line + 1, column := 1, start := 0 }
      else if isDigitByte c then
        let k := runLen isDigitByte (st1.source.drop st1.current)
        let st2 : Scanner := { st1 with current := st1.current + k }
        let nums : List Char := c :: (st1.source.drop st1.current).take k
        if digitsToNat nums ≤ u32Max then Scanner.emit (.Value (digitsToNat nums)) st2
        else .err st2
      else if isIdentStart c then
        let k := runLen isIdentByte (st1.source.drop st1.current)
        let st2 : Scanner := { st1 with current := st1.current + k }
        let ident := String.mk (c :: (st1.source.drop st1.current).take k)
        Scanner.emit (keywordType ident) st2
      else
        Scanner.scan_token fuel st1

/-- Result of `Scanner::next` (the `Iterator` impl): a token with the
updated scanner, `none` (end of input, or the `Err` of an overflowing
digit run), or a panic. -/
inductive NextRes where
  | some (t : Token) (st : Scanner)
  | none (st : Scanner)
  | panic
  deriving DecidableEq, Repr

/-- `Scanner::next` from the `Iterator` impl: `None` at end of input,
otherwise `scan_token`, with its `Err` mapped to `None`.  The `nofuel`
arm is unreachable by `scan_token_fuel`. -/
def Scanner.next (st : Scanner) : NextRes :=
  if st.is_at_end then .none st
  else
    match Scanner.scan_token (st.source.length - st.current + 1) st with
    | .ok t st' => .some t st'
    | .err st' => .none st'
    | .panic => .panic
    | .nofuel => .panic

/-- Collecting the token iterator (as `collect` does): pull `next` until
it yields `None`.  `none` means a panic occurred; the fuel is an artifact
of the embedding (one unit per token plus one suffices, since every token
consumes at least one byte). -/
def tokensAux : Nat → Scanner → Option (List Token)
  | 0, _ => Option.none
  | fuel + 1, st =>
    match st.next with
    | .none _ => Option.some []
    | .panic => Option.none
    | .some t st' => (tokensAux fuel st').map (fun l => t :: l)

/-- The full token sequence of a source string. -/
def tokensStr (s : String) : Option (List Token) :=
  tokensAux (s.length + 1) (Scanner.new s)

/-! ## syntax.rs -/

/-- Expr from syntax.rs.  `Binary` and `Unary` keep the operator Token,
as in the source. -/
inductive Expr where
  | Load (e : Expr)
  | Binary (lhs : Expr) (op : Token) (rhs : Expr)
  | Unary (op : Token) (e : Expr)
  | Var (name : String)
  | GetInput (src : String)
  | Val (v : Nat)
  deriving DecidableEq, Repr

/-- Stmt from syntax.rs.  `Assignment` keeps the identifier Token. -/
inductive Stmt where
  | Assignment (identifier : Token) (e : Expr)
  | Store (addr : Expr) (val : Expr)
  | Goto (e : Expr)
  | Assert (e : Expr)
  | IfThenElse (cond : Expr) (lhs : Expr) (rhs : Expr)
  deriving DecidableEq, Repr

/-! ## parser.rs

The parser pulls tokens from a `Peekable<Scanner>`; it never pushes any
back, so it is embedded as functions over the remaining token list.  Each
function returns the parsed value together with the tokens left, an error
together with the tokens left (the Rust scanner state survives an `Err`,
which `synchronize` relies on), a panic (`next().unwrap()` on an empty
stream), or runs out of embedding fuel (never happens with fuel larger
than the token count, since every recursion consumes a token). -/

/-- ParseError from parser.rs. -/
inductive ParseError where
  | Stmt (msg : String)
  | Expr (msg : String)
  | Expected (tt : TokenType)
  deriving DecidableEq, Repr

/-- Outcome of a parser function: value or error, each with the remaining
token stream, a panic, or fuel exhaustion (embedding artifact). -/
inductive PRes (α : Type) where
  | ok (a : α) (rest : List Token)
  | err (e : ParseError) (rest : List Token)
  | panic
  | nofuel
  deriving DecidableEq, Repr

/-- Sequencing of parser results, the embedding of Rust's `?` operator. -/
def pbind {α β : Type} (x : PRes α) (f : α → List Token → PRes β) : PRes β :=
  match x with
  | .ok a rest => f a rest
  | .err e rest => .err e rest
  | .panic => .panic
  | .nofuel => .nofuel

namespace Parser

/-- The `BINARY_OPS` table membership test. -/
def isBinaryOp (tt : TokenType) : Bool :=
  tt = .Plus || tt = .Minus || tt = .Star || tt = .Slash

/-- `Parser::binary_binding_power`. -/
def binary_binding_power (tt : TokenType) : Except ParseError (Nat × Nat) :=
  match tt with
  | .Plus => .ok (1, 2)
  | .Minus => .ok (1, 2)
  | .Star => .ok (3, 4)
  | .Slash => .ok (3, 4)
  | _ => .error (.Expr ("Expected operator."))

/-- `Parser::check`: the next token matches the given type. -/
def check (tt : TokenType) (ts : List Token) : Bool :=
  match ts.head? with
  | some t => t.token_type = tt
  | none => false

/-- `Parser::expect`: consume the expected token or fail. -/
def expect (tt : TokenType) (ts : List Token) : PRes Unit :=
  if check tt ts then .ok () ts.tail else .err (.Expected tt) ts

mutual

/-- `Parser::expression`: dispatch on the peeked token. Note the source
returns `Expr::GetInput` without consuming the `get_input` token. -/
def expression (fuel : Nat) (ts : List Token) : PRes Expr :=
  match fuel with
  | 0 => .nofuel
  | fuel + 1 =>
    match ts.head? with
    | none => .err (.Expr ("Expected token, found EOF.")) ts
    | some t =>
      match t.token_type with
      | .Load => load fuel ts
      | .GetInput => .ok (Expr.GetInput ("stdin")) ts
      | .Identifier _ => ops fuel 0 ts
      | .Value _ => ops fuel 0 ts
      | .Plus => unary fuel ts
      | .Minus => unary fuel ts
      | _ => .err (.Expr ("Expected Load, GetInput, Identifier or Value.")) ts

/-- `Parser::unary`: consume the operator, parse a full expression. -/
def unary (fuel : Nat) (ts : List Token) : PRes Expr :=
  match fuel with
  | 0 => .nofuel
  | fuel + 1 =>
    match ts with
    | [] => .panic
    | t :: rest =>
      pbind (expression fuel rest) (fun e rest1 => .ok (Expr.Unary t e) rest1)

/-- `Parser::load`: `load ( expression )`. -/
def load (fuel : Nat) (ts : List Token) : PRes Expr :=
  match fuel with
  | 0 => .nofuel
  | fuel + 1 =>
    match ts with
    | [] => .panic
    | _ :: rest =>
      pbind (expect .LeftParen rest) (fun _ rest1 =>
      pbind (expression fuel rest1) (fun inner rest2 =>
      pbind (expect .RightParen rest2) (fun _ rest3 =>
      .ok (Expr.Load inner) rest3)))

/-- `Parser::ops`, the Pratt parser: consume the leading atom, then loop. -/
def ops (fuel : Nat) (min_binding_power : Nat) (ts : List Token) : PRes Expr :=
  match fuel with
  | 0 => .nofuel
  | fuel + 1 =>
    match ts with
    | [] => .err (.Expr ("Expected value or identifier.")) []
    | t :: rest =>
      match t.token_type with
      | .Value v => opsLoop fuel min_binding_power (Expr.Val v) rest
      | .Identifier x => opsLoop fuel min_binding_power (Expr.Var x) rest
      | _ => .err (.Expr ("Expected value or identifier.")) rest

/-- The `loop` inside `Parser::ops`: peek an operator, stop if it is not
binary or binds weaker than the caller's minimum, otherwise consume it,
parse the right side with its right binding power, and fold left. -/
def opsLoop (fuel : Nat) (min_binding_power : Nat) (lhs : Expr) (ts : List Token) : PRes Expr :=
  match fuel with
  | 0 => .nofuel
  | fuel + 1 =>
    match ts.head? with
    | none => .ok lhs ts
    | some op =>
      if isBinaryOp op.token_type then
        match binary_binding_power op.token_type with
        | .error e => .err e ts
        | .ok (lbp, rbp) =>
          if lbp < min_binding_power then .ok lhs ts
          else
            pbind (ops fuel rbp ts.tail) (fun rhs rest =>
              opsLoop fuel min_binding_power (Expr.Binary lhs op rhs) rest)
      else .ok lhs ts

end

/-- `Parser::assign`: the identifier token was already consumed by
`statement`; `next().unwrap()` the `:=` (a panic at EOF), then parse the
right-hand expression. -/
def assign (fuel : Nat) (identifier : Token) (ts : List Token) : PRes Stmt :=
  match ts with
  | [] => .panic
  | a :: rest =>
    if a.token_type = .Assign then
      pbind (expression fuel rest) (fun e rest1 => .ok (Stmt.Assignment identifier e) rest1)
    else .err (.Stmt ("Invalid assignment.")) rest

/-- `Parser::store`: `store ( expression , expression )` (the `store`
keyword was consumed by `statement`). -/
def store (fuel : Nat) (ts : List Token) : PRes Stmt :=
  pbind (expect .LeftParen ts) (fun _ ts1 =>
  pbind (expression fuel ts1) (fun l ts2 =>
  pbind (expect .Comma ts2) (fun _ ts3 =>
  pbind (expression fuel ts3) (fun r ts4 =>
  pbind (expect .RightParen ts4) (fun _ ts5 =>
  .ok (Stmt.Store l r) ts5)))))

/-- `Parser::goto`. -/
def goto (fuel : Nat) (ts : List Token) : PRes Stmt :=
  pbind (expression fuel ts) (fun e ts1 => .ok (Stmt.Goto e) ts1)

/-- `Parser::assert`. -/
def assertStmt (fuel : Nat) (ts : List Token) : PRes Stmt :=
  pbind (expression fuel ts) (fun e ts1 => .ok (Stmt.Assert e) ts1)

/-- `Parser::r#if`: `if expression then goto expression else goto
expression`. -/
def ifStmt (fuel : Nat) (ts : List Token) : PRes Stmt :=
  pbind (expression fuel ts) (fun c ts1 =>
  pbind (expect .Then ts1) (fun _ ts2 =>
  pbind (expect .Goto ts2) (fun _ ts3 =>
  pbind (expression fuel ts3) (fun l ts4 =>
  pbind (expect .Else ts4) (fun _ ts5 =>
  pbind (expect .Goto ts5) (fun _ ts6 =>
  pbind (expression fuel ts6) (fun r ts7 =>
  .ok (Stmt.IfThenElse c l r) ts7)))))))

/-- `Parser::statement`: dispatch on the first token. -/
def statement (fuel : Nat) (ts : List Token) : PRes Stmt :=
  match ts with
  | [] => .err (.Stmt ("Expected token, found EOF.")) []
  | t :: rest =>
    match t.token_type with
    | .Identifier _ => assign fuel t rest
    | .Store => store fuel rest
    | .Goto => goto fuel rest
    | .Assert => assertStmt fuel rest
    | .If => ifStmt fuel rest
    | _ => .err (.Stmt ("Expected statement.")) rest

/-- The recovery set of `Parser::synchronize` (note: `Assign`, not
identifiers, stands in for the start of an assignment). -/
def isSyncPoint (tt : TokenType) : Bool :=
  tt = .Assign || tt = .Store || tt = .Goto || tt = .Assert || tt = .If

/-- The `while` loop of `Parser::synchronize`: discard tokens until one
in the recovery set is next. -/
def syncLoop : List Token → List Token
  | [] => []
  | t :: rest => if isSyncPoint t.token_type then t :: rest else syncLoop rest

/-- `Parser::synchronize`: discard one token unconditionally, then run
the recovery loop. -/
def synchronize : List Token → List Token
  | [] => []
  | _ :: rest => syncLoop rest

/-- Outcome of `Parser::next` (the `Iterator` impl). -/
inductive NextStmt where
  | some (s : Stmt) (rest : List Token)
  | none
  | panic
  | nofuel
  deriving DecidableEq, Repr

/-- `Parser::next`: try a statement; on failure end the iteration if the
stream is exhausted, otherwise synchronize and retry. -/
def next (fuel : Nat) (ts : List Token) : NextStmt :=
  match fuel with
  | 0 => .nofuel
  | fuel + 1 =>
    match statement fuel ts with
    | .ok s rest => .some s rest
    | .panic => .panic
    | .nofuel => .nofuel
    | .err _ rest =>
      if rest = [] then .none
      else next fuel (synchronize rest)

/-- Outcome of collecting the statement iterator. -/
inductive ParsedProgram where
  | ok (stmts : List Stmt)
  | panic
  | nofuel
  deriving DecidableEq, Repr

/-- Collect the whole statement sequence, as the interpreter's owner
does: pull `next` until it yields `None`. -/
def parseAll (fuel : Nat) (ts : List Token) : ParsedProgram :=
  match fuel with
  | 0 => .nofuel
  | fuel + 1 =>
    match next fuel ts with
    | .none => .ok []
    | .panic => .panic
    | .nofuel => .nofuel
    | .some s rest =>
      match parseAll fuel rest with
      | .ok l => .ok (s :: l)
      | .panic => .panic
      | .nofuel => .nofuel

end Parser

/-! ## interpreter.rs

`registers` and `vars` (`HashMap`s) are modelled as association lists
with unique keys; `std::io::stdin` as a `stdin` string field read to
exhaustion by `GetInput`.  Every `unwrap()` failure, `panic!`, division
by zero and the `t => panic!` arm are the `panic` outcome;
`std::process::exit(1337)` on a failed assertion is the distinguished
`assertFailure` outcome.  u32 arithmetic wraps modulo 2^32 (release-mode
Rust semantics). -/

/-- `HashMap::get` on an association list with unique keys. -/
def mapLookup {κ : Type} [DecidableEq κ] (m : List (κ × Nat)) (k : κ) : Option Nat :=
  match m with
  | [] => Option.none
  | (k', v) :: rest => if k = k' then some v else mapLookup rest k

/-- `HashMap::insert` on an association list with unique keys (the old
value, which `insert` returns, is `mapLookup` before the call). -/
def mapInsert {κ : Type} [DecidableEq κ] (m : List (κ × Nat)) (k : κ) (v : Nat) : List (κ × Nat) :=
  match m with
  | [] => [(k, v)]
  | (k', v') :: rest => if k = k' then (k, v) :: rest else (k', v') :: mapInsert rest k v

/-- `buffer.parse::<u32>()`: an optional leading `+`, then a non-empty
digit run whose value fits in u32. -/
def parseU32 (s : String) : Option Nat :=
  let cs := if s.data.head? = some '+' then s.data.tail else s.data
  if cs = [] then Option.none
  else if cs.all isDigitByte then
    if digitsToNat cs ≤ u32Max then some (digitsToNat cs) else Option.none
  else Option.none

/-- Interpreter state from interpreter.rs, plus the external stdin the
`GetInput` expression reads. -/
structure Interpreter where
  statements : List Stmt
  registers : List (Nat × Nat)
  vars : List (String × Nat)
  program_counter : Nat
  stdin : String
  deriving DecidableEq, Repr

/-- Result of `Interpreter::visit_expr`: a value with the updated state,
or a panic (`unwrap` on a missing binding or malformed input, division
by zero, or a non-operator token inside `Binary`). -/
inductive EvalRes where
  | ok (v : Nat) (st : Interpreter)
  | panic
  deriving DecidableEq, Repr

/-- `Interpreter::visit_expr`. -/
def visit_expr (st : Interpreter) : Expr → EvalRes
  | .Load e =>
    match visit_expr st e with
    | .ok addr st1 =>
      match mapLookup st1.registers addr with
      | some v => .ok v st1
      | Option.none => .panic
    | .panic => .panic
  | .Binary l op r =>
    match visit_expr st l with
    | .ok lv st1 =>
      match visit_expr st1 r with
      | .ok rv st2 =>
        match op.token_type with
        | .Plus => .ok ((lv + rv) % 2 ^ 32) st2
        | .Minus => .ok ((2 ^ 32 + lv - rv) % 2 ^ 32) st2
        | .Star => .ok ((lv * rv) % 2 ^ 32) st2
        | .Slash => if rv = 0 then .panic else .ok (lv / rv) st2
        | _ => .panic
      | .panic => .panic
    | .panic => .panic
  | .Unary _ e =>
    match visit_expr st e with
    | .ok v st1 => .ok v st1
    | .panic => .panic
  | .Var identifier =>
    match mapLookup st.vars identifier with
    | some v => .ok v st
    | Option.none => .panic
  | .GetInput _ =>
    match parseU32 st.stdin with
    | some v => .ok v { st with stdin := "" }
    | Option.none => .panic
  | .Val v => .ok v st

/-- Result of `Interpreter::visit_stmt`: a value with the updated state,
a panic, or the distinguished assertion failure
(`std::process::exit(1337)`). -/
inductive StmtRes where
  | ok (v : Nat) (st : Interpreter)
  | panic
  | assertFailure
  deriving DecidableEq, Repr

/-- `Interpreter::visit_stmt`.  The program counter is incremented
before the statement is evaluated; `Assignment` returns the value of
`HashMap::insert`, i.e. the PREVIOUS binding, unwrapped. -/
def visit_stmt (st : Interpreter) (s : Stmt) : StmtRes :=
  let st1 : Interpreter := { st with program_counter := st.program_counter + 1 }
  match s with
  | .Assignment identifier e =>
    match visit_expr st1 e with
    | .ok v st2 =>
      match mapLookup st2.vars identifier.lexeme with
      | some prev => .ok prev { st2 with vars := mapInsert st2.vars identifier.lexeme v }
      | Option.none => .panic
    | .panic => .panic
  | .Store r v =>
    match visit_expr st1 r with
    | .ok addr st2 =>
      match visit_expr st2 v with
      | .ok val st3 => .ok val { st3 with registers := mapInsert st3.registers addr val }
      | .panic => .panic
    | .panic => .panic
  | .Goto e =>
    match visit_expr st1 e with
    | .ok v st2 => .ok v { st2 with program_counter := v }
    | .panic => .panic
  | .Assert e =>
    match visit_expr st1 e with
    | .ok v st2 => if v = 1 then .ok v st2 else .assertFailure
    | .panic => .panic
  | .IfThenElse c l r =>
    match visit_expr st1 c with
    | .ok v st2 =>
      if v = 1 then
        match visit_expr st2 l with
        | .ok v2 st3 => .ok v2 st3
        | .panic => .panic
      else if v = 0 then
        match visit_expr st2 r with
        | .ok v2 st3 => .ok v2 st3
        | .panic => .panic
      else .ok 0 st2
    | .panic => .panic

/-- Result of `Interpreter::visit`: the ordered result values, with the
final state on normal termination; on a panic or an assertion failure the
values pushed before that point are kept as the trace.  `outOfFuel` is an
embedding artifact for the non-terminating runs the language permits. -/
inductive RunRes where
  | ok (res : List Nat) (st : Interpreter)
  | panic (res : List Nat)
  | assertFailure (res : List Nat)
  | outOfFuel (res : List Nat) (st : Interpreter)
  deriving DecidableEq, Repr

/-- `Interpreter::visit`: loop while `program_counter` indexes into
`statements`, executing the fetched statement and appending its value. -/
def visit : Nat → Interpreter → List Nat → RunRes
  | 0, st, acc => .outOfFuel acc st
  | fuel + 1, st, acc =>
    match st.statements[st.program_counter]? with
    | Option.none => .ok acc st
    | some s =>
      match visit_stmt st s with
      | .ok v st' => visit fuel st' (acc ++ [v])
      | .panic => .panic acc
      | .assertFailure => .assertFailure acc

/-- `Interpreter::new` (the embedding starts with an empty stdin). -/
def Interpreter.new (statements : List Stmt) : Interpreter :=
  { statements := statements, registers := [], vars := [], program_counter := 0, stdin := "" }

/-! ## Helper lemmas -/

/-- Emitting a token never exhausts fuel. -/
theorem emit_ne_nofuel (tt : TokenType) (st : Scanner) : Scanner.emit tt st ≠ .nofuel := by
  simp [Scanner.emit]

/-- With more fuel than bytes left, `scan_token` never exhausts its
fuel: the `nofuel` outcome is unreachable from `next`, which passes
`remaining bytes + 1`. -/
theorem scan_token_fuel : ∀ (fuel : Nat) (st : Scanner),
    st.source.length - st.current < fuel → Scanner.scan_token fuel st ≠ .nofuel := by
  intro fuel
  induction fuel with
  | zero => intro st h; omega
  | succ fuel ih =>
    intro st h hx
    cases hc : st.source[st.current]? with
    | none => simp [Scanner.scan_token, hc] at hx
    | some c =>
      have hcur : st.current < st.source.length := by
        rcases Nat.lt_or_ge st.current st.source.length with hh | hh
        · exact hh
        · rw [List.getElem?_eq_none hh] at hc
          exact Option.noConfusion hc
      simp only [Scanner.scan_token, hc] at hx
      by_cases h1 : c = '('
      · rw [if_pos h1] at hx; exact emit_ne_nofuel _ _ hx
      rw [if_neg h1] at hx
      by_cases h2 : c = ')'
      · rw [if_pos h2] at hx; exact emit_ne_nofuel _ _ hx
      rw [if_neg h2] at hx
      by_cases h3 : c = ','
      · rw [if_pos h3] at hx; exact emit_ne_nofuel _ _ hx
      rw [if_neg h3] at hx
      by_cases h4 : c = '+'
      · rw [if_pos h4] at hx; exact emit_ne_nofuel _ _ hx
      rw [if_neg h4] at hx
      by_cases h5 : c = '-'
      · rw [if_pos h5] at hx; exact emit_ne_nofuel _ _ hx
      rw [if_neg h5] at hx
      by_cases h6 : c = '*'
      · rw [if_pos h6] at hx; exact emit_ne_nofuel _ _ hx
      rw [if_neg h6] at hx
      by_cases h7 : c = '/'
      · rw [if_pos h7] at hx; exact emit_ne_nofuel _ _ hx
      rw [if_neg h7] at hx
      by_cases h8 : c = ':'
      · rw [if_pos h8] at hx
        by_cases h8b : st.source[st.current + 1]? = some '='
        · rw [if_pos h8b] at hx; exact emit_ne_nofuel _ _ hx
        · rw [if_neg h8b] at hx
          exact ih _ (by simp; omega) hx
      rw [if_neg h8] at hx
      by_cases h9 : c = ' ' ∨ c = '\r' ∨ c = '\t'
      · rw [if_pos h9] at hx
        exact ih _ (by simp; omega) hx
      rw [if_neg h9] at hx
      by_cases h10 : c = '\n'
      · rw [if_pos h10] at hx
        exact ih _ (by simp; omega) hx
      rw [if_neg h10] at hx
      by_cases h11 : isDigitByte c = true
      · rw [if_pos h11] at hx
        split at hx
        · exact emit_ne_nofuel _ _ hx
        · exact ScanRes.noConfusion hx
      rw [if_neg h11] at hx
      by_cases h12 : isIdentStart c = true
      · rw [if_pos h12] at hx; exact emit_ne_nofuel _ _ hx
      rw [if_neg h12] at hx
      exact ih _ (by simp; omega) hx

/-- Expression evaluation never touches the program counter: the only
state `visit_expr` changes is the stdin consumed by `GetInput`. -/
theorem visit_expr_pc (e : Expr) : ∀ (st : Interpreter) (v : Nat) (st' : Interpreter),
    visit_expr st e = .ok v st' → st'.program_counter = st.program_counter := by
  induction e with
  | Load e ih =>
    intro st v st' h
    simp only [visit_expr] at h
    cases hh : visit_expr st e with
    | panic => simp [hh] at h
    | ok addr st1 =>
      simp only [hh] at h
      cases hl : mapLookup st1.registers addr with
      | none => simp [hl] at h
      | some w =>
        simp only [hl] at h
        injection h with hv hst
        subst hst
        exact ih st addr _ hh
  | Binary l op r ihl ihr =>
    intro st v st' h
    simp only [visit_expr] at h
    cases hl : visit_expr st l with
    | panic => simp [hl] at h
    | ok lv st1 =>
      simp only [hl] at h
      cases hr : visit_expr st1 r with
      | panic => simp [hr] at h
      | ok rv st2 =>
        simp only [hr] at h
        have h2 : st2.program_counter = st.program_counter := by
          rw [ihr st1 rv st2 hr, ihl st lv st1 hl]
        split at h
        · cases h; exact h2
        · cases h; exact h2
        · cases h; exact h2
        · split at h
          · cases h
          · cases h; exact h2
        · cases h
  | Unary op e ih =>
    intro st v st' h
    simp only [visit_expr] at h
    cases hh : visit_expr st e with
    | panic => simp [hh] at h
    | ok w st1 =>
      simp only [hh] at h
      injection h with hv hst
      subst hst
      exact ih st w _ hh
  | Var name =>
    intro st v st' h
    simp only [visit_expr] at h
    cases hl : mapLookup st.vars name with
    | none => simp [hl] at h
    | some w => simp only [hl] at h; cases h; rfl
  | GetInput s =>
    intro st v st' h
    simp only [visit_expr] at h
    cases hp : parseU32 st.stdin with
    | none => simp [hp] at h
    | some w => simp only [hp] at h; cases h; rfl
  | Val w =>
    intro st v st' h
    simp only [visit_expr] at h
    cases h
    rfl

/-! ## Claims -/

/-- C1: the claim says executing `Assignment(name, expr)` always
succeeds, binds the name and yields the newly computed value.  The code
instead calls `.unwrap()` on the value returned by `HashMap::insert`:
with `x` unbound the run panics, and with `x` previously bound to 5 the
statement yields the PREVIOUS value 5, not the new value 1 (the binding
itself is updated). -/
theorem c1_assignment_code_bug :
    visit 2 (Interpreter.new
        [Stmt.Assignment { token_type := .Identifier ("x"), lexeme := "x", line := 1 } (Expr.Val 1)]) []
      = .panic [] ∧
    visit_stmt
      { Interpreter.new
          [Stmt.Assignment { token_type := .Identifier ("x"), lexeme := "x", line := 1 } (Expr.Val 1)] with
        vars := [("x", 5)] }
      (Stmt.Assignment { token_type := .Identifier ("x"), lexeme := "x", line := 1 } (Expr.Val 1))
      = .ok 5
        { Interpreter.new
            [Stmt.Assignment { token_type := .Identifier ("x"), lexeme := "x", line := 1 } (Expr.Val 1)] with
          vars := [("x", 1)], program_counter := 1 } ∧
    (5 : Nat) ≠ 1 :=
  ⟨rfl, rfl, by decide⟩

/-- C2: the claim says a `Goto` whose target strictly exceeds
`len(statements)` fails with an out-of-range error.  The code performs no
range check: `goto 5` in a 1-statement program sets the counter to 5 and
the run terminates normally with result `[5]` — no error of any kind. -/
theorem c2_goto_code_bug :
    visit 2 (Interpreter.new [Stmt.Goto (Expr.Val 5)]) []
      = .ok [5] { Interpreter.new [Stmt.Goto (Expr.Val 5)] with program_counter := 5 } ∧
    (Interpreter.new [Stmt.Goto (Expr.Val 5)]).statements.length < 5 :=
  ⟨rfl, by decide⟩

/-- C3: the claim says undefined-variable lookup, undefined-register
`load`, division by zero and malformed `get_input` input are surfaced as
recoverable error values, never a panic.  All four are `unwrap()`-style
panics in the code (the `panic` outcome of the embedding), and a run
hitting one aborts with `panic` rather than returning an error value. -/
theorem c3_runtime_errors_code_bug :
    visit_expr (Interpreter.new []) (Expr.Var ("y")) = .panic ∧
    visit_expr (Interpreter.new []) (Expr.Load (Expr.Val 0)) = .panic ∧
    visit_expr (Interpreter.new [])
      (Expr.Binary (Expr.Val 1) { token_type := .Slash, lexeme := "/", line := 1 } (Expr.Val 0))
      = .panic ∧
    visit_expr { Interpreter.new [] with stdin := "abc" } (Expr.GetInput ("stdin")) = .panic ∧
    visit 2 (Interpreter.new [Stmt.Goto (Expr.Var ("y"))]) [] = .panic [] :=
  ⟨rfl, rfl, rfl, rfl, rfl⟩

/-- C4: `Assert(condExpr)` with condition exactly 1 yields 1 and the run
continues; any other condition value terminates the run at once with the
distinguished `assertFailure` outcome (`std::process::exit(1337)`), a
constructor distinct from the `ok`/`panic` outcomes, with no further
statements executed and no further result values produced. -/
theorem c4_assert_semantics (st : Interpreter) (e : Expr) (v : Nat) (st' : Interpreter)
    (h : visit_expr { st with program_counter := st.program_counter + 1 } e = .ok v st') :
    (v = 1 → visit_stmt st (.Assert e) = .ok 1 st') ∧
    (v ≠ 1 →
      visit_stmt st (.Assert e) = .assertFailure ∧
      ∀ fuel acc, st.statements[st.program_counter]? = some (.Assert e) →
        visit (fuel + 1) st acc = .assertFailure acc) := by
  have hs : visit_stmt st (.Assert e) = if v = 1 then .ok v st' else .assertFailure := by
    simp [visit_stmt, h]
  constructor
  · intro h1
    subst h1
    simp [hs]
  · intro h1
    have hs' : visit_stmt st (.Assert e) = .assertFailure := by simp [hs, h1]
    refine ⟨hs', ?_⟩
    intro fuel acc hget
    simp [visit, hget, hs']

/-- Witness for C4 at `assert 0` and `assert 1`. -/
theorem c4_assert_semantics_witness :
    visit_stmt (Interpreter.new [Stmt.Assert (Expr.Val 0)]) (Stmt.Assert (Expr.Val 0))
      = .assertFailure ∧
    visit 1 (Interpreter.new [Stmt.Assert (Expr.Val 0)]) [] = .assertFailure [] ∧
    visit_stmt (Interpreter.new [Stmt.Assert (Expr.Val 1)]) (Stmt.Assert (Expr.Val 1))
      = .ok 1 { Interpreter.new [Stmt.Assert (Expr.Val 1)] with program_counter := 1 } := by
  have h0 := c4_assert_semantics (Interpreter.new [Stmt.Assert (Expr.Val 0)]) (Expr.Val 0) 0
    ({ Interpreter.new [Stmt.Assert (Expr.Val 0)] with program_counter := 1 }) rfl
  have h1 := c4_assert_semantics (Interpreter.new [Stmt.Assert (Expr.Val 1)]) (Expr.Val 1) 1
    ({ Interpreter.new [Stmt.Assert (Expr.Val 1)] with program_counter := 1 }) rfl
  exact ⟨(h0.2 (by decide)).1, (h0.2 (by decide)).2 0 [] rfl, h1.1 rfl⟩

/-- C5: the claim says the program counter is always a valid index or
exactly `len(statements)`.  The unchecked `Goto` breaks this: after
executing `goto 100` in a 1-statement program the counter holds 100,
which is neither a valid index nor equal to the length. -/
theorem c5_pc_invariant_code_bug :
    visit_stmt (Interpreter.new [Stmt.Goto (Expr.Val 100)]) (Stmt.Goto (Expr.Val 100))
      = .ok 100 { Interpreter.new [Stmt.Goto (Expr.Val 100)] with program_counter := 100 } ∧
    visit 2 (Interpreter.new [Stmt.Goto (Expr.Val 100)]) []
      = .ok [100] { Interpreter.new [Stmt.Goto (Expr.Val 100)] with program_counter := 100 } ∧
    (Interpreter.new [Stmt.Goto (Expr.Val 100)]).statements.length = 1 ∧
    ¬ (100 < 1 ∨ 100 = 1) :=
  ⟨rfl, rfl, rfl, by decide⟩

/-- C9: `IfThenElse(cond, lhs, rhs)`: condition exactly 1 evaluates only
the then-expression and returns its value; exactly 0 evaluates only the
else-expression and returns its value; any other value evaluates neither
branch and returns 0.  In every case the program counter ends at the
normal advance (the fetch increment), never redirected. -/
theorem c9_if_then_else (st : Interpreter) (c l r : Expr) (v : Nat) (stc : Interpreter)
    (h : visit_expr { st with program_counter := st.program_counter + 1 } c = .ok v stc) :
    stc.program_counter = st.program_counter + 1 ∧
    (v = 1 →
      (∀ r2, visit_stmt st (.IfThenElse c l r2) = visit_stmt st (.IfThenElse c l r)) ∧
      (∀ vl stl, visit_expr stc l = .ok vl stl →
        visit_stmt st (.IfThenElse c l r) = .ok vl stl ∧
        stl.program_counter = st.program_counter + 1)) ∧
    (v = 0 →
      (∀ l2, visit_stmt st (.IfThenElse c l2 r) = visit_stmt st (.IfThenElse c l r)) ∧
      (∀ vr str2, visit_expr stc r = .ok vr str2 →
        visit_stmt st (.IfThenElse c l r) = .ok vr str2 ∧
        str2.program_counter = st.program_counter + 1)) ∧
    (v ≠ 1 → v ≠ 0 →
      ∀ l2 r2, visit_stmt st (.IfThenElse c l2 r2) = .ok 0 stc) := by
  have hpc : stc.program_counter = st.program_counter + 1 := by
    have h2 := visit_expr_pc c { st with program_counter := st.program_counter + 1 } v stc h
    simpa using h2
  refine ⟨hpc, ?_, ?_, ?_⟩
  · intro h1
    subst h1
    constructor
    · intro r2
      simp [visit_stmt, h]
    · intro vl stl hl
      refine ⟨by simp [visit_stmt, h, hl], ?_⟩
      rw [visit_expr_pc l stc vl stl hl, hpc]
  · intro h0
    subst h0
    constructor
    · intro l2
      simp [visit_stmt, h]
    · intro vr str2 hr
      refine ⟨by simp [visit_stmt, h, hr], ?_⟩
      rw [visit_expr_pc r stc vr str2 hr, hpc]
  · intro h1 h0 l2 r2
    simp [visit_stmt, h, h1, h0]

/-- Witness for C9 at conditions 1 and 3. -/
theorem c9_if_then_else_witness :
    visit_stmt (Interpreter.new [Stmt.IfThenElse (Expr.Val 1) (Expr.Val 7) (Expr.Val 9)])
        (Stmt.IfThenElse (Expr.Val 1) (Expr.Val 7) (Expr.Val 9))
      = .ok 7 { Interpreter.new [Stmt.IfThenElse (Expr.Val 1) (Expr.Val 7) (Expr.Val 9)] with
                program_counter := 1 } ∧
    visit_stmt (Interpreter.new []) (Stmt.IfThenElse (Expr.Val 3) (Expr.Val 7) (Expr.Val 9))
      = .ok 0 { Interpreter.new [] with program_counter := 1 } := by
  have h1 := c9_if_then_else (Interpreter.new [Stmt.IfThenElse (Expr.Val 1) (Expr.Val 7) (Expr.Val 9)])
    (Expr.Val 1) (Expr.Val 7) (Expr.Val 9) 1
    ({ Interpreter.new [Stmt.IfThenElse (Expr.Val 1) (Expr.Val 7) (Expr.Val 9)] with
       program_counter := 1 }) rfl
  have h3 := c9_if_then_else (Interpreter.new []) (Expr.Val 3) (Expr.Val 7) (Expr.Val 9) 3
    ({ Interpreter.new [] with program_counter := 1 }) rfl
  exact ⟨((h1.2.1 rfl).2 7 _ rfl).1, h3.2.2.2 (by decide) (by decide) (Expr.Val 7) (Expr.Val 9)⟩

/-- C6: scanning and parsing `"1 + 1 * 1"` yields `1 + (1 * 1)` and
`"1 * 1 + 1"` yields `(1 * 1) + 1`; the binding powers are `(1, 2)` for
`+`/`-` and `(3, 4)` for `*`/`/`; operators of one level group to the
left (`"1 - 1 + 1"` is `(1 - 1) + 1` and `"1 / 1 * 1"` is
`(1 / 1) * 1`). -/
theorem c6_precedence :
    tokensStr ("1 + 1 * 1") = some
      [{ token_type := .Value 1, lexeme := "1", line := 1 },
       { token_type := .Plus, lexeme := "+", line := 1 },
       { token_type := .Value 1, lexeme := "1", line := 1 },
       { token_type := .Star, lexeme := "*", line := 1 },
       { token_type := .Value 1, lexeme := "1", line := 1 }] ∧
    Parser.expression 20
      [{ token_type := .Value 1, lexeme := "1", line := 1 },
       { token_type := .Plus, lexeme := "+", line := 1 },
       { token_type := .Value 1, lexeme := "1", line := 1 },
       { token_type := .Star, lexeme := "*", line := 1 },
       { token_type := .Value 1, lexeme := "1", line := 1 }]
      = .ok (Expr.Binary (Expr.Val 1) { token_type := .Plus, lexeme := "+", line := 1 }
              (Expr.Binary (Expr.Val 1) { token_type := .Star, lexeme := "*", line := 1 }
                (Expr.Val 1))) [] ∧
    tokensStr ("1 * 1 + 1") = some
      [{ token_type := .Value 1, lexeme := "1", line := 1 },
       { token_type := .Star, lexeme := "*", line := 1 },
       { token_type := .Value 1, lexeme := "1", line := 1 },
       { token_type := .Plus, lexeme := "+", line := 1 },
       { token_type := .Value 1, lexeme := "1", line := 1 }] ∧
    Parser.expression 20
      [{ token_type := .Value 1, lexeme := "1", line := 1 },
       { token_type := .Star, lexeme := "*", line := 1 },
       { token_type := .Value 1, lexeme := "1", line := 1 },
       { token_type := .Plus, lexeme := "+", line := 1 },
       { token_type := .Value 1, lexeme := "1", line := 1 }]
      = .ok (Expr.Binary
              (Expr.Binary (Expr.Val 1) { token_type := .Star, lexeme := "*", line := 1 }
                (Expr.Val 1))
              { token_type := .Plus, lexeme := "+", line := 1 } (Expr.Val 1)) [] ∧
    Parser.binary_binding_power .Plus = .ok (1, 2) ∧
    Parser.binary_binding_power .Minus = .ok (1, 2) ∧
    Parser.binary_binding_power .Star = .ok (3, 4) ∧
    Parser.binary_binding_power .Slash = .ok (3, 4) ∧
    Parser.expression 20
      [{ token_type := .Value 1, lexeme := "1", line := 1 },
       { token_type := .Minus, lexeme := "-", line := 1 },
       { token_type := .Value 1, lexeme := "1", line := 1 },
       { token_type := .Plus, lexeme := "+", line := 1 },
       { token_type := .Value 1, lexeme := "1", line := 1 }]
      = .ok (Expr.Binary
              (Expr.Binary (Expr.Val 1) { token_type := .Minus, lexeme := "-", line := 1 }
                (Expr.Val 1))
              { token_type := .Plus, lexeme := "+", line := 1 } (Expr.Val 1)) [] ∧
    Parser.expression 20
      [{ token_type := .Value 1, lexeme := "1", line := 1 },
       { token_type := .Slash, lexeme := "/", line := 1 },
       { token_type := .Value 1, lexeme := "1", line := 1 },
       { token_type := .Star, lexeme := "*", line := 1 },
       { token_type := .Value 1, lexeme := "1", line := 1 }]
      = .ok (Expr.Binary
              (Expr.Binary (Expr.Val 1) { token_type := .Slash, lexeme := "/", line := 1 }
                (Expr.Val 1))
              { token_type := .Star, lexeme := "*", line := 1 } (Expr.Val 1)) [] :=
  ⟨rfl, rfl, rfl, rfl, rfl, rfl, rfl, rfl, rfl, rfl⟩

/-- C7: the claim says a malformed statement followed by a well-formed
one still yields the well-formed statement.  On the claim's own example
(a stray token, then `x := 1`) the parser yields NO statements at all:
`statement` consumes the stray token and fails, `synchronize` then
unconditionally discards the identifier `x` and stops at `:=` (the
recovery set contains `Assign`, not identifiers), where `statement`
fails again and the rest is discarded.  The same tokens without the
stray token parse fine, showing the lost statement was well-formed. -/
theorem c7_recovery_code_bug :
    tokensStr (") x := 1") = some
      [{ token_type := .RightParen, lexeme := ")", line := 1 },
       { token_type := .Identifier ("x"), lexeme := "x", line := 1 },
       { token_type := .Assign, lexeme := ":=", line := 1 },
       { token_type := .Value 1, lexeme := "1", line := 1 }] ∧
    Parser.parseAll 20
      [{ token_type := .RightParen, lexeme := ")", line := 1 },
       { token_type := .Identifier ("x"), lexeme := "x", line := 1 },
       { token_type := .Assign, lexeme := ":=", line := 1 },
       { token_type := .Value 1, lexeme := "1", line := 1 }]
      = .ok [] ∧
    Parser.parseAll 20
      [{ token_type := .Value 7, lexeme := "7", line := 1 },
       { token_type := .Identifier ("x"), lexeme := "x", line := 1 },
       { token_type := .Assign, lexeme := ":=", line := 1 },
       { token_type := .Value 1, lexeme := "1", line := 1 }]
      = .ok [] ∧
    Parser.parseAll 20
      [{ token_type := .Identifier ("x"), lexeme := "x", line := 1 },
       { token_type := .Assign, lexeme := ":=", line := 1 },
       { token_type := .Value 1, lexeme := "1", line := 1 }]
      = .ok [Stmt.Assignment { token_type := .Identifier ("x"), lexeme := "x", line := 1 }
              (Expr.Val 1)] :=
  ⟨rfl, rfl, rfl, rfl⟩

/-- C8: the claim says every token's recorded lexeme is exactly the
source slice consumed for it, including on later lines.  The scanner
resets `start` to 0 (not to `current`) when it consumes a newline, so on
the two-line source `"x\ny"` the token for `y` records the lexeme
`"x\ny"` — the whole source — instead of the slice `"y"` it consumed. -/
theorem c8_lexeme_code_bug :
    tokensStr ("x\ny") = some
      [{ token_type := .Identifier ("x"), lexeme := "x", line := 1 },
       { token_type := .Identifier ("y"), lexeme := "x\ny", line := 2 }] ∧
    ("x\ny" : String) ≠ "y" :=
  ⟨rfl, by decide⟩

/-- C10: a digit run that does not fit in u32 makes `scan_token` return
`Err`, which the iterator's `next` maps to `None`, ending the token
sequence: whatever source follows the overflowing literal, no further
token is produced.  An invalid byte, by contrast, is reported and
skipped, and scanning continues (`"@ 1"` still yields the `1` token,
whose lexeme also drags along the skipped bytes). -/
theorem c10_overflow_ends_scan :
    (∀ st st2, Scanner.is_at_end st = false →
      Scanner.scan_token (st.source.length - st.current + 1) st = .err st2 →
      Scanner.next st = .none st2 ∧ ∀ fuel, tokensAux (fuel + 1) st = some []) ∧
    tokensStr ("+ 4294967296 x := 1") = some [{ token_type := .Plus, lexeme := "+", line := 1 }] ∧
    tokensStr ("@ 1") = some [{ token_type := .Value 1, lexeme := " 1", line := 1 }] := by
  refine ⟨?_, rfl, rfl⟩
  intro st st2 hend hscan
  have hnext : Scanner.next st = .none st2 := by
    simp [Scanner.next, hend, hscan]
  exact ⟨hnext, fun fuel => by simp [tokensAux, hnext]⟩

/-- Witness for C10: the overflowing literal `4294967296` alone, where
`scan_token` returns `Err` and the token sequence ends with no token. -/
theorem c10_overflow_ends_scan_witness :
    Scanner.next (Scanner.new ("4294967296"))
      = .none { source := ("4294967296" : String).data, start := 0, current := 10,
                line := 1, column := 0 } ∧
    tokensAux 1 (Scanner.new ("4294967296")) = some [] := by
  have h := (c10_overflow_ends_scan).1 (Scanner.new ("4294967296"))
    ({ source := ("4294967296" : String).data, start := 0, current := 10,
       line := 1, column := 0 }) rfl rfl
  exact ⟨h.1, h.2 0⟩

end Simpil
